import Mathlib

/-!
A verification development for the xv6-based kernel in this repository.
It shallowly embeds, in Lean, the frame tracker (kalloc.c), the software
TLB and inverted page table (swtlb.c), the page-fault COW path (trap.c),
the block allocator and inode-level COW write path (fs.c), the snapshot
admission checks (fs.c), and the tlbinfo syscall argument validation
(the sysproc part of memtest.c), and proves properties of these
embeddings.

Machine integers are modeled as `Nat`/`Int`; where C overflow or
truncation matters (`uint16_t` struct fields, `uint32_t` wrap checks) the
embedding applies an explicit `% 2^w`.  Pointer-level plumbing (locks,
buffer-cache handles, `bread`/`brelse`) is elided: a disk block is read
and written directly in the modeled state, which matches the code because
every modeled operation runs under the corresponding lock or inside a
single log transaction.
-/

namespace Xv6

namespace Kalloc

/-- Number of tracked physical frames (`PFNNUM` = 60000). -/
def PFNNUM : ℕ := 60000

/-- Per-frame metadata record, from `struct kphysframe_info` (kalloc.c).
`pid` is an `int` in C and holds −1 for free or kernel-owned frames, so it
is modeled as `ℤ`. -/
structure FrameInfo where
  frame_index : ℕ
  allocated : ℕ
  pid : ℤ
  start_tick : ℕ
  refcnt : ℕ
deriving Repr, DecidableEq

/-- Allocator state: the `pf_info` array (as a function from frame index)
and the `kmem.freelist` free list (as the list of frame indices of the
chained pages), plus the current tick counter read by `kalloc`. -/
structure St where
  pf : ℕ → FrameInfo
  freelist : List ℕ
  ticks : ℕ

/-- Metadata written when a frame is released to the free list
(kalloc.c lines 128-132). -/
def resetInfo : FrameInfo := ⟨0, 0, -1, 0, 0⟩

/-- The reference-count decrement performed by `kfree` (kalloc.c lines
108-112): the decrement is guarded by `refcnt > 0`. -/
def kfreeDec (r : ℕ) : ℕ := if 0 < r then r - 1 else r

/-- `kfree` from kalloc.c lines 88-137, at frame-index granularity: the
caller's address `v` is page-aligned and `idx = PFX(v)`.  `none` models
the `panic` on an out-of-range frame.  The reference count is
decremented (guarded); exactly when it is 0 afterwards the frame is
pushed on the free list and its metadata reset. -/
def kfree (s : St) (idx : ℕ) : Option St :=
  if PFNNUM ≤ idx then none
  else
    let r := kfreeDec (s.pf idx).refcnt
    if r = 0 then
      some { s with pf := fun j => if j = idx then resetInfo else s.pf j,
                    freelist := idx :: s.freelist }
    else
      some { s with pf := fun j => if j = idx then { s.pf idx with refcnt := r } else s.pf j }

/-- Result of `kalloc`: `fault` models the `panic` on a corrupt free list
(out-of-range index), `oom` the NULL return on an empty free list. -/
inductive KallocRes where
  | fault : KallocRes
  | oom : KallocRes
  | ok (idx : ℕ) (s : St) : KallocRes

/-- `kalloc` from kalloc.c lines 143-196.  Pops the free list, marks the
frame allocated with `refcnt = 1` and the current tick; the owner pid is
recorded only when `storePid` holds (C: `procready() && store_pid`),
otherwise the `pid` field keeps its previous value. -/
def kalloc (s : St) (storePid : Bool) (curpid : ℤ) : KallocRes :=
  match s.freelist with
  | [] => .oom
  | idx :: rest =>
    if PFNNUM ≤ idx then .fault
    else
      let info : FrameInfo :=
        { frame_index := idx, allocated := 1, start_tick := s.ticks, refcnt := 1,
          pid := if storePid then curpid else (s.pf idx).pid }
      .ok idx { s with freelist := rest,
                       pf := fun j => if j = idx then info else s.pf j }

/-- The frame-tracker metadata invariant of the spec (§3):
`allocated = 0 ⇒ pid = −1 ∧ refcnt = 0` and `allocated = 1 ⇒ refcnt ≥ 1`. -/
def InvAt (f : FrameInfo) : Prop :=
  (f.allocated = 0 → f.pid = -1 ∧ f.refcnt = 0) ∧ (f.allocated = 1 → 1 ≤ f.refcnt)

/-- The invariant over the whole tracker. -/
def Inv (s : St) : Prop := ∀ i, InvAt (s.pf i)

/-- The tracker state that `kalloc` produces when it pops frame `idx`
from the free list: the popped frame is marked allocated with one
reference, stamped with the current tick and (when `storePid`) the
caller's pid.  Used to state theorems about callers of `kalloc`. -/
def kallocOkSt (s : St) (storePid : Bool) (curpid : ℤ) (idx : ℕ) : St :=
  { s with freelist := s.freelist.tail,
           pf := fun j =>
             (if j = idx then
               { frame_index := idx, allocated := 1, start_tick := s.ticks, refcnt := 1,
                 pid := if storePid then curpid else (s.pf idx).pid }
              else s.pf j) }

/-- A concrete tracker state used as a witness: frame 3 is allocated with
two sharers, every other frame is free. -/
def wSt : St :=
  { pf := fun i => if i = 3 then ⟨3, 1, 7, 5, 2⟩ else resetInfo,
    freelist := [], ticks := 9 }

/-- The state produced by `kfree wSt 3`: the reference count drops to 1
and the frame stays off the free list. -/
def wStAfter : St :=
  { wSt with pf := fun j => if j = 3 then { wSt.pf 3 with refcnt := 1 } else wSt.pf j }

/-- A concrete tracker state for the boot-path witness: frame 5 is a
managed frame whose `refcnt` is already 0 (as `freerange` leaves it). -/
def wBoot : St :=
  { pf := fun i => if i = 5 then ⟨0, 0, -1, 0, 0⟩ else resetInfo,
    freelist := [2], ticks := 0 }

end Kalloc

namespace Swtlb

/-- Number of direct-mapped TLB slots (`NUMTLB` = 128, swtlb.c). -/
def NUMTLB : ℕ := 128

/-- One software-TLB slot, from `struct tlb_entry` (swtlb.h): `va` and
`pa` hold page numbers (`uint32_t`), `flags` is a `uint16_t`. -/
structure TlbEntry where
  pid : ℕ
  va : ℕ
  pa : ℕ
  flags : ℕ
  valid : Bool
deriving Repr, DecidableEq

/-- The software TLB: the `entries` array (slots `0..NUMTLB-1` are used)
plus the monotone hit/miss counters. -/
structure Tlb where
  entries : ℕ → TlbEntry
  hits : ℕ
  misses : ℕ

/-- The slot-index hash `TX(pid, page) = pid ^ page` (swtlb.c). -/
def TX (pid page : ℕ) : ℕ := pid ^^^ page

/-- `tlblookup` from swtlb.c lines 205-231.  Returns the `(pa, flags)`
pair on a hit (`*pa_out` gets `(e->pa << 12) | (va & 0xFFF)`) together
with the TLB whose hit or miss counter was bumped. -/
def tlblookup (t : Tlb) (pid va : ℕ) : Option (ℕ × ℕ) × Tlb :=
  let vp := va >>> 12
  let idx := TX pid vp &&& (NUMTLB - 1)
  let e := t.entries idx
  if e.valid ∧ e.pid = pid ∧ e.va = vp then
    (some ((e.pa <<< 12) ||| (va &&& 0xFFF), e.flags), { t with hits := t.hits + 1 })
  else
    (none, { t with misses := t.misses + 1 })

/-- `tlballoc` from swtlb.c lines 234-254: install `(pid, va_page) ↦
(pa_page, flags)` in the slot for `(pid, va)`, overwriting any collision.
The `flags` struct field is a `uint16_t`, so the stored flags are the low
16 bits. -/
def tlballoc (t : Tlb) (pid va pa flags : ℕ) : Tlb :=
  let vp := va >>> 12
  let pp := pa >>> 12
  let idx := TX pid vp &&& (NUMTLB - 1)
  { t with entries := fun j =>
      if j = idx then { pid := pid, va := vp, pa := pp, flags := flags % 2 ^ 16, valid := true }
      else t.entries j }

/-- `tlbivlt` from swtlb.c lines 258-275: invalidate every slot
(`0..NUMTLB-1`) holding the given pid. -/
def tlbivlt (t : Tlb) (pid : ℕ) : Tlb :=
  { t with entries := fun j =>
      if j < NUMTLB ∧ (t.entries j).valid = true ∧ (t.entries j).pid = pid then
        { t.entries j with valid := false }
      else t.entries j }

/-- `tlbivltp` from swtlb.c lines 279-295: invalidate the slot for
`(pid, va)` when it currently holds exactly that pair. -/
def tlbivltp (t : Tlb) (pid va : ℕ) : Tlb :=
  let vp := va >>> 12
  let idx := TX pid vp &&& (NUMTLB - 1)
  let e := t.entries idx
  if e.valid ∧ e.pid = pid ∧ e.va = vp then
    { t with entries := fun j => if j = idx then { e with valid := false } else t.entries j }
  else t

/-- An all-invalid TLB, as left by `tlbinit1`. -/
def emptyTlb : Tlb := { entries := fun _ => ⟨0, 0, 0, 0, false⟩, hits := 0, misses := 0 }

end Swtlb

namespace Ipt

/-- Number of hash buckets (`IPT_BUCKETS` = 60000, swtlb.c). -/
def IPT_BUCKETS : ℕ := 60000

def PGSIZE : ℕ := 4096

/-- `PTE_P` (0x001), the Present bit always or-ed into stored IPT flags. -/
def PTE_P : ℕ := 0x001

/-- An inverted-page-table entry, from `struct ipt_entry` (swtlb.h).
`refcnt` is a `uint16_t` used by the head of each bucket chain. -/
structure IptEntry where
  pfn : ℕ
  pid : ℕ
  va : ℕ
  flags : ℕ
  refcnt : ℕ
deriving Repr, DecidableEq

instance : Inhabited IptEntry := ⟨⟨0, 0, 0, 0, 0⟩⟩

/-- The `uint16_t` decrement applied to a chain head's `refcnt`
(`ent->refcnt--`), wrapping at 0. -/
def dec16 (r : ℕ) : ℕ := (r + 2 ^ 16 - 1) % 2 ^ 16

/-- IPT state: each bucket is the `next`-linked chain hanging off
`ipt_hash[idx]`, in chain order.  The slab pool (`iptcache.list`) is
abstracted to the number of free cells; growing the pool by carving a
fresh page (`iptalloc`) can fail when `kalloc` fails, which is modeled by
`pool = 0`. -/
structure Table where
  buckets : ℕ → List IptEntry
  pool : ℕ

/-- `ipt_insert` from swtlb.c lines 363-426.  `none` models the `panic`
on a bucket index out of range.  If an entry with the same `(va, pid)`
exists in the bucket for `pa/PGSIZE`, only its flags are updated;
otherwise a new entry is appended at the tail and, when the chain was
nonempty, the head's `refcnt` is incremented.  On success the TLB slot
for `(pid, va)` is invalidated; if no cell can be allocated the function
returns -1 without touching the TLB. -/
def ipt_insert (s : Table) (t : Swtlb.Tlb) (va pa perm pid : ℕ) :
    Option (Table × Swtlb.Tlb × ℤ) :=
  let idx := pa / PGSIZE
  if IPT_BUCKETS ≤ idx then none
  else
    let chain := s.buckets idx
    match chain.findIdx? (fun e => decide (e.va = va ∧ e.pid = pid)) with
    | some k =>
      let e := chain.getD k default
      some ({ s with buckets := fun j =>
                if j = idx then chain.set k { e with flags := perm ||| PTE_P } else s.buckets j },
            Swtlb.tlbivltp t pid va, 0)
    | none =>
      if s.pool = 0 then some (s, t, -1)
      else
        let newE : IptEntry := ⟨idx, pid, va, perm ||| PTE_P, 0⟩
        let chain' := match chain with
          | [] => [newE]
          | h :: tl => { h with refcnt := (h.refcnt + 1) % 2 ^ 16 } :: (tl ++ [newE])
        some ({ s with buckets := fun j => if j = idx then chain' else s.buckets j,
                       pool := s.pool - 1 },
              Swtlb.tlbivltp t pid va, 0)

/-- `ipt_remove` from swtlb.c lines 430-474.  The first entry of the
bucket chain for `pa/PGSIZE` matching `(va, pid)` is unlinked and its
cell returned to the pool; the (original) chain head's `refcnt` is
decremented.  When the matching entry is the chain head, the code — after
unlinking it with `ipt_hash[idx] = t->next` — additionally executes
`if (t == ent) ipt_hash[idx] = 0;`, discarding whatever remained of the
chain.  Returns 1 when an entry was removed, 0 otherwise. -/
def ipt_remove (s : Table) (va pa pid : ℕ) : Table × ℤ :=
  let idx := pa / PGSIZE
  let chain := s.buckets idx
  match chain.findIdx? (fun e => decide (e.va = va ∧ e.pid = pid)) with
  | none => (s, 0)
  | some k =>
    if k = 0 then
      ({ s with buckets := fun j => if j = idx then [] else s.buckets j,
                pool := s.pool + 1 }, 1)
    else
      let chain' := match chain.eraseIdx k with
        | [] => []
        | h :: tl => { h with refcnt := dec16 h.refcnt } :: tl
      ({ s with buckets := fun j => if j = idx then chain' else s.buckets j,
                pool := s.pool + 1 }, 1)

/-- A concrete IPT whose bucket 2 chains two entries of two processes
sharing physical page 2: pid 1 maps va 0x1000 (the head), pid 5 maps va
0x3000 (the successor). -/
def wIpt : Table :=
  { buckets := fun j => if j = 2 then [⟨2, 1, 4096, 3, 1⟩, ⟨2, 5, 12288, 3, 0⟩] else [],
    pool := 4 }

end Ipt

namespace Cow

/-- Modelled from the spec: mmu.h is not under src/.  `PTE_P`, `PTE_W`,
`PTE_U` are the standard x86 low PTE bits; `PTE_T` and `PTE_C` are the
two additional bits of §3 of the spec, placed in the x86
software-available flag positions, distinct from each other and from
P/W/U and inside the low 12 flag bits. -/
def PTE_W : ℕ := 0x002

def PTE_T : ℕ := 0x200

def PTE_C : ℕ := 0x400

/-- `PTE_ADDR(pte) = pte & ~0xFFF` on 32-bit values (mmu.h, standard
xv6): the frame address held by a PTE. -/
def PTE_ADDR (pte : ℕ) : ℕ := pte &&& 0xFFFFF000

/-- `PTE_FLAGS(pte) = pte & 0xFFF` (mmu.h, standard xv6). -/
def PTE_FLAGS (pte : ℕ) : ℕ := pte &&& 0xFFF

/-- The machine state seen by the COW page-fault path: the faulting
process's PTE (`*pte`), physical page contents indexed by frame index,
the frame tracker, the IPT, the software TLB, whether `lcr3` reloaded the
hardware TLB, and the process's `killed` flag. -/
structure St where
  pte : ℕ
  pages : ℕ → (ℕ → ℕ)
  kal : Kalloc.St
  ipt : Ipt.Table
  tlb : Swtlb.Tlb
  hwFlushed : Bool
  killed : Bool

/-- The COW branch of the page-fault handler, trap.c lines 114-157,
taken when the fault is a write (`tf->err & 0x2`) and the PTE carries
`PTE_C`.  `none` models the `panic` on an out-of-range frame index (and
the unreachable panics inside `kalloc`/`ipt_insert`).  When the frame's
`refcnt > 1` and a new frame is available, the page is copied, the PTE
repointed, the IPT entry moved, and the old frame's count decremented;
when `refcnt = 1` (or after the OOM kill) the frame is kept.  In all
cases `PTE_C` is cleared, `PTE_W` set, and the hardware TLB flushed. -/
def cowFault (s : St) (va pid : ℕ) : Option St :=
  let pa := PTE_ADDR s.pte
  let idx := pa / Ipt.PGSIZE
  if Kalloc.PFNNUM ≤ idx then none
  else
    let refcnt := (s.kal.pf idx).refcnt
    let s1? : Option St :=
      if 1 < refcnt then
        match Kalloc.kalloc s.kal true (pid : ℤ) with
        | .fault => none
        | .oom => some { s with killed := true }
        | .ok ni kal1 =>
          let s' : St := { s with kal := kal1,
                                  pages := fun j => if j = ni then s.pages idx else s.pages j }
          let pte2 := ((ni * Ipt.PGSIZE ||| PTE_FLAGS s.pte) &&& (0xFFFFFFFF ^^^ PTE_C)) ||| PTE_W
          let rm := Ipt.ipt_remove s'.ipt va pa pid
          match Ipt.ipt_insert rm.1 s'.tlb va (ni * Ipt.PGSIZE) (PTE_FLAGS pte2) pid with
          | none => none
          | some (ipt2, tlb2, _) =>
            some { s' with pte := pte2, ipt := ipt2, tlb := tlb2,
                           kal := { kal1 with pf := fun j =>
                             (if j = idx then { kal1.pf idx with refcnt := refcnt - 1 }
                              else kal1.pf j) } }
      else some s
    match s1? with
    | none => none
    | some s1 =>
      some { s1 with pte := (s1.pte &&& (0xFFFFFFFF ^^^ PTE_C)) ||| PTE_W,
                     hwFlushed := true }

/-- A concrete machine state for the C2 witness: the PTE maps frame 2
with `PTE_C` set and flags P|U|C; frame 2 has two sharers; frame 9 is
free; pid 1 owns the mapping at va 0x5000. -/
def wCow : St :=
  { pte := 2 * 4096 + 0x405,
    pages := fun i b => i + b,
    kal := { pf := fun i => if i = 2 then ⟨2, 1, 1, 0, 2⟩ else Kalloc.resetInfo,
             freelist := [9], ticks := 3 },
    ipt := { buckets := fun j => if j = 2 then [⟨2, 1, 0x5000, 5, 0⟩] else [], pool := 4 },
    tlb := Swtlb.emptyTlb,
    hwFlushed := false,
    killed := false }

/-- A concrete machine state for the refcnt-1 side of the C2 witness:
like `wCow` but frame 2 has a single owner. -/
def wCow1 : St :=
  { wCow with kal := { wCow.kal with pf := fun i => if i = 2 then ⟨2, 1, 1, 0, 1⟩ else Kalloc.resetInfo } }

end Cow

namespace Fs

/-- Block size in bytes (`BSIZE` = 512, fs.h, standard xv6). -/
def BSIZE : ℕ := 512

/-- Number of direct block addresses per inode (`NDIRECT` = 12). -/
def NDIRECT : ℕ := 12

/-- Entries of the single indirect block (`NINDIRECT = BSIZE/sizeof(uint)`). -/
def NINDIRECT : ℕ := BSIZE / 4

def MAXFILE : ℕ := NDIRECT + NINDIRECT

/-- Inode types from stat.h (standard xv6). -/
def T_DIR : ℕ := 1

def T_FILE : ℕ := 2

def T_DEV : ℕ := 3

/-- Content of one disk block, as an index ↦ value map: data blocks are
read at byte granularity, the indirect block at u32-word granularity (the
modeled operations never mix the two views on one block). -/
def Blk : Type := ℕ → ℕ

/-- An in-memory inode: type, size and the `addrs[0..NDIRECT]` array. -/
structure Inode where
  itype : ℕ
  size : ℕ
  addrs : ℕ → ℕ

/-- File-system state: data-block contents, the free bitmap (flattened to
a byte array: block `b` is byte `b/8`, bit `b%8`, which agrees with the
on-disk `BBLOCK` layout because `BPB = 8·BSIZE`), the snapshot bitmap
`smeta.smap` (also bytes), and the device size `sb.size`. -/
structure Disk where
  data : ℕ → Blk
  bmapBits : ℕ → ℕ
  smap : ℕ → ℕ
  nblocks : ℕ

/-- Overwrite the content of block `b`. -/
def updData (fs : Disk) (b : ℕ) (blk : Blk) : Disk :=
  { fs with data := fun j => if j = b then blk else fs.data j }

/-- Test of block `b`'s snapshot bit: `smap[b/8] & (1 << (b%8))`. -/
def smapTest (fs : Disk) (b : ℕ) : Bool := fs.smap (b / 8) &&& (1 <<< (b % 8)) != 0

/-- Clear block `b`'s snapshot bit (`smap[i] &= ~x` on a `uchar`). -/
def smapClear (fs : Disk) (b : ℕ) : Disk :=
  { fs with smap := fun j =>
      (if j = b / 8 then fs.smap (b / 8) &&& (0xFF ^^^ (1 <<< (b % 8))) else fs.smap j) }

/-- Clear block `b`'s bit in the free bitmap (`bp->data[bi/8] &= ~m`). -/
def bmapClear (fs : Disk) (b : ℕ) : Disk :=
  { fs with bmapBits := fun j =>
      (if j = b / 8 then fs.bmapBits (b / 8) &&& (0xFF ^^^ (1 <<< (b % 8))) else fs.bmapBits j) }

/-- `balloc` (fs.c lines 103-128): find the first clear free-bitmap bit
below `sb.size` (the nested per-bitmap-block loops scan exactly the block
numbers `0..sb.size-1` in order), set it, zero the block (`bzero`), and
return its number.  `none` models `panic("balloc: out of blocks")`. -/
def balloc (fs : Disk) : Option (ℕ × Disk) :=
  match (List.range fs.nblocks).find?
      (fun b => fs.bmapBits (b / 8) &&& (1 <<< (b % 8)) == 0) with
  | none => none
  | some b =>
    some (b, updData { fs with bmapBits := fun j =>
      (if j = b / 8 then fs.bmapBits (b / 8) ||| (1 <<< (b % 8)) else fs.bmapBits j) }
      b (fun _ => 0))

/-- `bfree` (fs.c lines 131-152): if block `b`'s `smap` bit is set,
return without touching the free bitmap; otherwise clear the block's
free-bitmap bit, panicking (`none`) if the block was already free. -/
def bfree (fs : Disk) (b : ℕ) : Option Disk :=
  if fs.smap (b / 8) &&& (1 <<< (b % 8)) ≠ 0 then some fs
  else
    if fs.bmapBits (b / 8) &&& (1 <<< (b % 8)) = 0 then none
    else some (bmapClear fs b)

/-- `bmap` (fs.c lines 582-613): resolve block `bn` of the inode,
allocating — and, in the indirect range, updating the indirect table
block — as needed.  `none` models `panic("bmap: out of range")` and the
panic inside `balloc`. -/
def bmap (fs : Disk) (ip : Inode) (bn : ℕ) : Option (ℕ × Disk × Inode) :=
  if bn < NDIRECT then
    if ip.addrs bn = 0 then
      match balloc fs with
      | none => none
      | some (a, fs1) =>
        some (a, fs1, { ip with addrs := fun j => if j = bn then a else ip.addrs j })
    else some (ip.addrs bn, fs, ip)
  else if bn - NDIRECT < NINDIRECT then
    match (if ip.addrs NDIRECT = 0 then
        (match balloc fs with
         | none => none
         | some (a, fs1) =>
           some (a, fs1, { ip with addrs := fun j => if j = NDIRECT then a else ip.addrs j }))
      else some (ip.addrs NDIRECT, fs, ip)) with
    | none => none
    | some (ia, fs1, ip1) =>
      if fs1.data ia (bn - NDIRECT) = 0 then
        match balloc fs1 with
        | none => none
        | some (a, fs2) =>
          some (a, updData fs2 ia
            (fun j => if j = bn - NDIRECT then a else fs1.data ia j), ip1)
      else some (fs1.data ia (bn - NDIRECT), fs1, ip1)
  else none

/-- `bmmap` (fs.c lines 619-649): like `bmap` but never allocates;
returns 0 for an absent block, `none` for the out-of-range panic. -/
def bmmap (fs : Disk) (ip : Inode) (bn : ℕ) : Option ℕ :=
  if bn < NDIRECT then some (ip.addrs bn)
  else if bn - NDIRECT < NINDIRECT then
    (if ip.addrs NDIRECT = 0 then some 0
     else some (fs.data (ip.addrs NDIRECT) (bn - NDIRECT)))
  else none

/-- The block-scan loop of `writei` (fs.c lines 810-852): for each block
position the write will touch, COW a shared direct block in place in the
inode, or clear the bit and schedule whole-indirect migration.  As in the
C, the stride `m` is computed from the original `off`.  `fuel ≥ n`
suffices because every iteration advances `tot` by `m ≥ 1`; `writei`
passes `n`. -/
def scanLoop (off n : ℕ) :
    ℕ → Disk → Inode → ℕ → ℕ → Bool → Bool → Option (Disk × Inode × Bool × Bool)
  | 0, fs, ip, _, _, um, mig => some (fs, ip, um, mig)
  | fuel + 1, fs, ip, tot, toff, um, mig =>
    if tot < n then
      let m := min (n - tot) (BSIZE - off % BSIZE)
      let iaddr := toff / BSIZE
      match bmmap fs ip iaddr with
      | none => none
      | some blockno =>
        if blockno = 0 then
          let fs1 := if NDIRECT ≤ iaddr ∧ smapTest fs blockno then smapClear fs blockno else fs
          scanLoop off n fuel fs1 ip (tot + m) (toff + m) um mig
        else if smapTest fs blockno then
          (if NDIRECT ≤ iaddr then
            scanLoop off n fuel (smapClear fs blockno) ip (tot + m) (toff + m) um true
          else
            let fs1 := smapClear fs blockno
            let buf := fs1.data blockno
            let ip1 := { ip with addrs := fun j => if j = iaddr then 0 else ip.addrs j }
            match bmap fs1 ip1 iaddr with
            | none => none
            | some (nb, fs2, ip2) =>
              scanLoop off n fuel (updData fs2 nb buf) ip2 (tot + m) (toff + m) true mig)
        else
          scanLoop off n fuel fs ip (tot + m) (toff + m) um mig
    else some (fs, ip, um, mig)

/-- The whole-indirect migration of `writei` (fs.c lines 854-887): read
the indirect table, copy every non-zero referenced block into a newly
allocated block (rewriting the table entry), then allocate a new indirect
block, store the rewritten table in it, and install it as
`addrs[NDIRECT]`. -/
def migrate (fs : Disk) (ip : Inode) : Option (Disk × Inode) :=
  let tbl := fs.data (ip.addrs NDIRECT)
  match (List.range (BSIZE / 4)).foldl
      (fun acc i =>
        match acc with
        | none => none
        | some (fs1, b) =>
          if tbl i ≠ 0 then
            (match balloc fs1 with
             | none => none
             | some (nb, fs2) =>
               some (updData fs2 nb (fs1.data (tbl i)), fun j => if j = i then nb else b j))
          else some (fs1, b))
      (some (fs, tbl)) with
  | none => none
  | some (fs1, b) =>
    match balloc fs1 with
    | none => none
    | some (nib, fs2) =>
      some (updData fs2 nib b,
        { ip with addrs := fun j => if j = NDIRECT then nib else ip.addrs j })

/-- The byte-copy loop of `writei` (fs.c lines 890-897): write `m` bytes
per touched block through `bmap`.  Returns the final `off` for the size
update. -/
def writeLoop (src : ℕ → ℕ) (n : ℕ) :
    ℕ → Disk → Inode → ℕ → ℕ → ℕ → Option (Disk × Inode × ℕ)
  | 0, fs, ip, off, _, _ => some (fs, ip, off)
  | fuel + 1, fs, ip, off, tot, soff =>
    if tot < n then
      match bmap fs ip (off / BSIZE) with
      | none => none
      | some (addr, fs1, ip1) =>
        let m := min (n - tot) (BSIZE - off % BSIZE)
        let old := fs1.data addr
        let blk : Blk := fun j =>
          if off % BSIZE ≤ j ∧ j < off % BSIZE + m
          then src (soff + (j - off % BSIZE)) else old j
        writeLoop src n fuel (updData fs1 addr blk) ip1 (off + m) (tot + m) (soff + m)
    else some (fs, ip, off)

/-- `writei` (fs.c lines 785-908) for non-device inodes; a device write
(`T_DEV`) goes to the device driver, outside this model (`none`).  The
`uint` wrap check `off + n < off` is modeled with `% 2^32`.  Persisting
`smeta` (`update_snapshot_meta`) rewrites the `/snapshot/smap` file,
which lives outside the modeled `Disk` region. -/
def writei (fs : Disk) (ip : Inode) (src : ℕ → ℕ) (off n : ℕ) :
    Option (Disk × Inode × ℤ) :=
  if ip.itype = T_DEV then none
  else if ip.size < off ∨ (off + n) % 2 ^ 32 < off then some (fs, ip, -1)
  else if MAXFILE * BSIZE < (off + n) % 2 ^ 32 then some (fs, ip, -1)
  else
    match (if ip.itype ≠ T_DIR then scanLoop off n n fs ip 0 off false false
           else some (fs, ip, false, false)) with
    | none => none
    | some (fs1, ip1, _, mig) =>
      match (if mig then migrate fs1 ip1 else some (fs1, ip1)) with
      | none => none
      | some (fs2, ip2) =>
        match writeLoop src n n fs2 ip2 off 0 0 with
        | none => none
        | some (fs3, ip3, off2) =>
          let ip4 := if 0 < n ∧ ip3.size < off2 then { ip3 with size := off2 } else ip3
          some (fs3, ip4, (n : ℤ))

/-- Stated from the claim (C1): per-block COW of a direct block `bn`
holding `blockno`: clear `blockno`'s snapshot bit, read the old block,
zero `addrs[bn]`, allocate a fresh block via `bmap`, and copy the old
data into it. -/
def cowDirectClaim (fs : Disk) (ip : Inode) (bn blockno : ℕ) : Option (Disk × Inode) :=
  let fs1 := smapClear fs blockno
  let buf := fs1.data blockno
  let ip1 := { ip with addrs := fun j => if j = bn then 0 else ip.addrs j }
  match bmap fs1 ip1 bn with
  | none => none
  | some (nb, fs2, ip2) => some (updData fs2 nb buf, ip2)

/-- Stated from the claim (C1): write the single byte `src 0` in place at
offset `off`, resolving the block through `bmap`. -/
def writeByteClaim (fs : Disk) (ip : Inode) (src : ℕ → ℕ) (off : ℕ) :
    Option (Disk × Inode) :=
  match bmap fs ip (off / BSIZE) with
  | none => none
  | some (addr, fs1, ip1) =>
    some (updData fs1 addr
      (fun j => if j = off % BSIZE then src 0 else fs1.data addr j), ip1)

/-- Stated from the claim (C1): a one-byte write at offset `off` first
COWs only the touched block when it is direct and its smap bit is set,
or clears the bit and migrates the whole indirect subtree when it is
indirect-referenced; a block whose bit is clear is written in place;
finally the size is extended if the byte lies past the old end. -/
def writeiOneByteClaim (fs : Disk) (ip : Inode) (src : ℕ → ℕ) (off : ℕ) :
    Option (Disk × Inode × ℤ) :=
  match bmmap fs ip (off / BSIZE) with
  | none => none
  | some blockno =>
    match (if blockno ≠ 0 ∧ smapTest fs blockno then
            (if off / BSIZE < NDIRECT then cowDirectClaim fs ip (off / BSIZE) blockno
             else migrate (smapClear fs blockno) ip)
           else some (fs, ip)) with
    | none => none
    | some (fs2, ip2) =>
      match writeByteClaim fs2 ip2 src off with
      | none => none
      | some (fs3, ip3) =>
        let ip4 := if ip3.size < off + 1 then { ip3 with size := off + 1 } else ip3
        some (fs3, ip4, 1)

/-- `s_isize` (fs.c lines 496-516): the number of in-use on-disk inodes
(`dip->type != 0`) over inum `1..ninodes-1`; `dtype` gives each inum's
on-disk type. -/
def s_isize (ninodes : ℕ) (dtype : ℕ → ℕ) : ℕ :=
  (List.range ninodes).countP (fun i => decide (1 ≤ i ∧ dtype i ≠ 0))

/-- One icache slot, with the fields `micount` inspects (fs.c 394-411). -/
structure CInode where
  ref : ℤ
  valid : ℤ
  nlink : ℤ

/-- `micount` (fs.c lines 394-411): the number of icache entries with
`ref > 0 || valid || nlink > 0`; the cache list has `NINODE` slots. -/
def micount (cache : List CInode) : ℕ :=
  cache.countP (fun e => decide (0 < e.ref ∨ e.valid ≠ 0 ∨ 0 < e.nlink))

/-- The admission check of `s_snapshot_create` (fs.c lines 1878-1896):
`curinodes = s_isize()`, raised to `micount()` when that is larger; fail
with −2 (returned before any snapshot tree is created) when
`curinodes + reqinodes + 1 > sb.ninodes`.  `some (-2)` is the failure,
`none` means the syscall proceeds. -/
def s_snapshot_create_admission (used mic req total : ℕ) : Option ℤ :=
  let curinodes := used
  let curinodes := if mic > curinodes then mic else curinodes
  if curinodes + req + 1 > total then some (-2) else none

/-- Stated from the claim (C5): the admission predicate as the claim
words it, with `avail = ninodes − s_isize()` in place of the used-inode
count. -/
def createAdmissionClaim (used mic req total : ℕ) : Bool :=
  decide (max (total - used) mic + req + 1 > total)

/-- The admission check of `s_snapshot_rollback` (fs.c lines 1943-1967):
`reqinodes = icount(snapshot) − icount(/)` as a signed int; fail with −2
when `curinodes + reqinodes > sb.ninodes`. -/
def s_snapshot_rollback_admission (used mic add del total : ℕ) : Option ℤ :=
  let curinodes := used
  let curinodes := if mic > curinodes then mic else curinodes
  if (curinodes : ℤ) + ((add : ℤ) - (del : ℤ)) > (total : ℤ) then some (-2) else none

/-- A concrete on-disk inode-type table for the C5 counterexample: inodes
1 and 2 are in use, the rest free. -/
def wDtype : ℕ → ℕ := fun i => if i = 1 ∨ i = 2 then 1 else 0

/-- A concrete inode for the C1 witness: a regular file of 1024 bytes
whose first direct block is block 7 (snapshot-shared on `wDisk`) and
whose second is block 8. -/
def wInode : Inode :=
  { itype := T_FILE, size := 1024,
    addrs := fun j => if j = 0 then 7 else if j = 1 then 8 else 0 }

/-- A concrete disk for witnesses: 64 blocks, blocks 0-9 allocated,
block 7's snapshot bit set. -/
def wDisk : Disk :=
  { data := fun b j => b + j,
    bmapBits := fun j => if j = 0 then 0xFF ||| (1 <<< 1) else 0,
    smap := fun j => if j = 0 then 1 <<< 7 else 0,
    nblocks := 64 }

end Fs

namespace Tlbinfo

def PGSIZE : ℕ := 4096

/-- Modelled from the spec (syscall.c is not under src/): `argptr`
validates a user pointer argument of the given byte size against the
process address space: it fails iff `addr ≥ sz` or `addr + size > sz`.
`true` means the pointer is accepted. -/
def argptrOk (sz addr size : ℕ) : Bool := decide (addr < sz ∧ addr + size ≤ sz)

/-- Modelled from the spec (vm.c is not under src/): `copyout` succeeds
iff the destination range lies within the mapped user pages, i.e. within
`sz` rounded up to a page boundary. -/
def copyoutOk (sz addr len : ℕ) : Bool :=
  decide (addr + len ≤ (sz + PGSIZE - 1) / PGSIZE * PGSIZE)

/-- `sys_tlbinfo` (memtest.c lines 258-279).  The second validation is
written `if (argptr(1, &misses_out, sizeof(uint32_t) < 0))` in the
source: the comparison sits inside the argument list, so the size passed
to `argptr` is `(sizeof(uint32_t) < 0) = 0`, and the counters are then
copied out with the real 4-byte size. -/
def sys_tlbinfo (sz hitsPtr missesPtr : ℕ) : ℤ :=
  if ¬ argptrOk sz hitsPtr 4 then -1
  else if ¬ argptrOk sz missesPtr (if (4 : ℤ) < 0 then 1 else 0) then -1
  else if ¬ copyoutOk sz hitsPtr 4 then -1
  else if ¬ copyoutOk sz missesPtr 4 then -1
  else 0

/-- Stated from the claim (C9): the specified syscall validates both
user pointers with the full 4-byte size before writing the counters. -/
def sys_tlbinfo_claim (sz hitsPtr missesPtr : ℕ) : ℤ :=
  if ¬ argptrOk sz hitsPtr 4 then -1
  else if ¬ argptrOk sz missesPtr 4 then -1
  else if ¬ copyoutOk sz hitsPtr 4 then -1
  else if ¬ copyoutOk sz missesPtr 4 then -1
  else 0

end Tlbinfo

end Xv6

/-- C8: the frame-tracker metadata invariants hold and are preserved:
`allocated = 0` implies `pid = −1` and `refcnt = 0`; `allocated = 1`
implies `refcnt ≥ 1`; `kalloc` and `kfree` preserve both; and `kfree`
returns the frame to the free list (resetting its metadata) if and only
if the reference count is 0 after the guarded decrement. -/
theorem Xv6.Kalloc.frame_tracker_invariants (s : Xv6.Kalloc.St) (h : Xv6.Kalloc.Inv s) :
    (∀ sp cp i s', Xv6.Kalloc.kalloc s sp cp = .ok i s' → Xv6.Kalloc.Inv s') ∧
    (∀ idx s', Xv6.Kalloc.kfree s idx = some s' →
      Xv6.Kalloc.Inv s' ∧
      ((s'.freelist = idx :: s.freelist ∧ s'.pf idx = Xv6.Kalloc.resetInfo) ↔
        Xv6.Kalloc.kfreeDec (s.pf idx).refcnt = 0)) := by
  constructor
  · intro sp cp i s' hk
    unfold Xv6.Kalloc.kalloc at hk
    cases hfl : s.freelist with
    | nil => rw [hfl] at hk; exact absurd hk (by simp)
    | cons a rest =>
      rw [hfl] at hk
      by_cases hrange : Xv6.Kalloc.PFNNUM ≤ a
      · simp [hrange] at hk
      · simp only [hrange, if_false] at hk
        injection hk with h1 h2
        subst h1
        subst h2
        intro j
        by_cases hj : j = a
        · subst hj
          simp [Xv6.Kalloc.InvAt]
        · simpa [Xv6.Kalloc.InvAt, hj] using h j
  · intro idx s' hk
    unfold Xv6.Kalloc.kfree at hk
    by_cases hrange : Xv6.Kalloc.PFNNUM ≤ idx
    · simp [hrange] at hk
    · simp only [hrange, if_false] at hk
      by_cases hz : Xv6.Kalloc.kfreeDec (s.pf idx).refcnt = 0
      · rw [if_pos hz] at hk
        injection hk with h2
        subst h2
        refine ⟨?_, ?_⟩
        · intro j
          by_cases hj : j = idx
          · subst hj
            simp [Xv6.Kalloc.InvAt, Xv6.Kalloc.resetInfo]
          · simpa [Xv6.Kalloc.InvAt, hj] using h j
        · simp [hz]
      · rw [if_neg hz] at hk
        injection hk with h2
        subst h2
        refine ⟨?_, ?_⟩
        · intro j
          by_cases hj : j = idx
          · subst hj
            simp only [Xv6.Kalloc.InvAt, eq_self_iff_true, if_true]
            constructor
            · intro hA
              exact absurd (show Xv6.Kalloc.kfreeDec ((s.pf j).refcnt) = 0 by
                simp [Xv6.Kalloc.kfreeDec, ((h j).1 hA).2]) hz
            · intro _
              exact Nat.one_le_iff_ne_zero.mpr hz
          · simpa [Xv6.Kalloc.InvAt, hj] using h j
        · constructor
          · rintro ⟨hfl, _⟩
            exact absurd hfl (by simp)
          · intro hc
            exact absurd hc hz

/-- Witness for C8 at a concrete state: frame 3 has `refcnt = 2`, so
`kfree` decrements without releasing the frame to the free list. -/
theorem Xv6.Kalloc.frame_tracker_invariants_witness :
    (Xv6.Kalloc.wStAfter.freelist = 3 :: Xv6.Kalloc.wSt.freelist ∧
        Xv6.Kalloc.wStAfter.pf 3 = Xv6.Kalloc.resetInfo) ↔
      Xv6.Kalloc.kfreeDec ((Xv6.Kalloc.wSt.pf 3).refcnt) = 0 := by
  have hInv : Xv6.Kalloc.Inv Xv6.Kalloc.wSt := by
    intro i
    by_cases hi : i = 3 <;>
      simp [Xv6.Kalloc.wSt, Xv6.Kalloc.InvAt, Xv6.Kalloc.resetInfo, hi]
  exact ((Xv6.Kalloc.frame_tracker_invariants Xv6.Kalloc.wSt hInv).2 3
    Xv6.Kalloc.wStAfter rfl).2

/-- C10: `kfree` on a managed frame whose `refcnt` is already 0 (the
`freerange` boot path) never underflows the reference count — the
decrement is guarded by `refcnt > 0` — and the frame goes directly to the
free list with all metadata (`allocated`, `pid`, `start_tick`, `refcnt`)
reset. -/
theorem Xv6.Kalloc.kfree_refcnt_zero (s : Xv6.Kalloc.St) (idx : ℕ)
    (h1 : idx < Xv6.Kalloc.PFNNUM) (h2 : (s.pf idx).refcnt = 0) :
    Xv6.Kalloc.kfree s idx =
      some { s with pf := fun j => if j = idx then Xv6.Kalloc.resetInfo else s.pf j,
                    freelist := idx :: s.freelist } ∧
    (Xv6.Kalloc.kfree s idx).map (fun s' => (s'.pf idx).refcnt) = some 0 := by
  have hdec : Xv6.Kalloc.kfreeDec ((s.pf idx).refcnt) = 0 := by
    simp [Xv6.Kalloc.kfreeDec, h2]
  have hk : Xv6.Kalloc.kfree s idx =
      some { s with pf := fun j => if j = idx then Xv6.Kalloc.resetInfo else s.pf j,
                    freelist := idx :: s.freelist } := by
    unfold Xv6.Kalloc.kfree
    simp [Nat.not_le.mpr h1, hdec]
  refine ⟨hk, ?_⟩
  rw [hk]
  simp [Xv6.Kalloc.resetInfo]

/-- Witness for C10 at a concrete state: frame 5 of `wBoot` has
`refcnt = 0` and is released directly to the free list. -/
theorem Xv6.Kalloc.kfree_refcnt_zero_witness :
    (Xv6.Kalloc.kfree Xv6.Kalloc.wBoot 5).map (fun s' => (s'.pf 5).refcnt) = some 0 :=
  (Xv6.Kalloc.kfree_refcnt_zero Xv6.Kalloc.wBoot 5 (by decide) rfl).2

/-- Helper: a TLB whose slot for `(pid, va)` holds exactly the record
that `tlballoc pid va pa flags` installs reports a hit returning
`(pa, flags)`, for page-aligned `va` and `pa` and 16-bit `flags`. -/
theorem Xv6.Swtlb.lookup_hit_of_entry (t : Xv6.Swtlb.Tlb) (pid va pa flags : ℕ)
    (hva : va % 4096 = 0) (hpa : pa % 4096 = 0) (hf : flags < 2 ^ 16)
    (he : t.entries (Xv6.Swtlb.TX pid (va >>> 12) &&& (Xv6.Swtlb.NUMTLB - 1)) =
      ⟨pid, va >>> 12, pa >>> 12, flags % 2 ^ 16, true⟩) :
    (Xv6.Swtlb.tlblookup t pid va).1 = some (pa, flags) := by
  unfold Xv6.Swtlb.tlblookup
  simp only [he, true_and, and_self, if_pos, eq_self_iff_true]
  have h1 : (pa >>> 12) <<< 12 = pa := by
    rw [Nat.shiftRight_eq_div_pow, Nat.shiftLeft_eq]
    exact Nat.div_mul_cancel (Nat.dvd_of_mod_eq_zero (by simpa using hpa))
  have h2 : va &&& 0xFFF = 0 := by
    rw [show (0xFFF : ℕ) = 2 ^ 12 - 1 by norm_num, Nat.and_pow_two_sub_one_eq_mod]
    simpa using hva
  rw [h1, h2, Nat.or_zero, Nat.mod_eq_of_lt hf]

/-- Counterexample to C7 as stated: the TLB entry stores `flags` in a
`uint16_t` field, so a lookup right after `tlballoc` with
`flags = 0x10000` returns flags 0, not the flags passed in. -/
theorem Xv6.Swtlb.lookup_after_alloc_flags_counterexample :
    (Xv6.Swtlb.tlblookup
        (Xv6.Swtlb.tlballoc Xv6.Swtlb.emptyTlb 1 4096 8192 65536) 1 4096).1 ≠
      some (8192, 65536) := by decide

/-- C7 (amended): for page-aligned `va` and `pa` and `flags < 2^16`,
`tlblookup (pid, va)` right after `tlballoc (pid, va, pa, flags)` hits
and returns `(pa, flags)`; and neither `tlbivltp` on a different
page-aligned `(pid, va)` pair nor `tlbivlt` on a different pid removes
the entry. -/
theorem Xv6.Swtlb.lookup_after_alloc (t : Xv6.Swtlb.Tlb)
    (pid va pa flags pid1 va1 pid2 : ℕ)
    (hva : va % 4096 = 0) (hpa : pa % 4096 = 0) (hf : flags < 2 ^ 16)
    (hva1 : va1 % 4096 = 0) (hd1 : ¬(pid1 = pid ∧ va1 = va)) (hd2 : pid2 ≠ pid) :
    (Xv6.Swtlb.tlblookup (Xv6.Swtlb.tlballoc t pid va pa flags) pid va).1 =
      some (pa, flags) ∧
    (Xv6.Swtlb.tlblookup
        (Xv6.Swtlb.tlbivltp (Xv6.Swtlb.tlballoc t pid va pa flags) pid1 va1) pid va).1 =
      some (pa, flags) ∧
    (Xv6.Swtlb.tlblookup
        (Xv6.Swtlb.tlbivlt (Xv6.Swtlb.tlballoc t pid va pa flags) pid2) pid va).1 =
      some (pa, flags) := by
  set A := Xv6.Swtlb.tlballoc t pid va pa flags with hA
  have heA : A.entries (Xv6.Swtlb.TX pid (va >>> 12) &&& (Xv6.Swtlb.NUMTLB - 1)) =
      ⟨pid, va >>> 12, pa >>> 12, flags % 2 ^ 16, true⟩ := by
    rw [hA]
    unfold Xv6.Swtlb.tlballoc
    simp
  have hvaeq : va = (va >>> 12) * 4096 := by
    rw [Nat.shiftRight_eq_div_pow]
    have := Nat.div_mul_cancel (Nat.dvd_of_mod_eq_zero (show va % 2 ^ 12 = 0 by simpa using hva))
    omega
  have hva1eq : va1 = (va1 >>> 12) * 4096 := by
    rw [Nat.shiftRight_eq_div_pow]
    have := Nat.div_mul_cancel (Nat.dvd_of_mod_eq_zero (show va1 % 2 ^ 12 = 0 by simpa using hva1))
    omega
  refine ⟨Xv6.Swtlb.lookup_hit_of_entry A pid va pa flags hva hpa hf heA, ?_, ?_⟩
  · -- tlbivltp on a different pair leaves the slot intact
    apply Xv6.Swtlb.lookup_hit_of_entry _ pid va pa flags hva hpa hf
    unfold Xv6.Swtlb.tlbivltp
    by_cases hc : ((A.entries (Xv6.Swtlb.TX pid1 (va1 >>> 12) &&& (Xv6.Swtlb.NUMTLB - 1))).valid = true ∧
        (A.entries (Xv6.Swtlb.TX pid1 (va1 >>> 12) &&& (Xv6.Swtlb.NUMTLB - 1))).pid = pid1 ∧
        (A.entries (Xv6.Swtlb.TX pid1 (va1 >>> 12) &&& (Xv6.Swtlb.NUMTLB - 1))).va = va1 >>> 12)
    · rw [if_pos hc]
      have hne : Xv6.Swtlb.TX pid (va >>> 12) &&& (Xv6.Swtlb.NUMTLB - 1) ≠
          Xv6.Swtlb.TX pid1 (va1 >>> 12) &&& (Xv6.Swtlb.NUMTLB - 1) := by
        intro hix
        rw [← hix, heA] at hc
        exact hd1 ⟨hc.2.1.symm, by rw [hva1eq, ← hc.2.2, ← hvaeq]⟩
      simp only [if_neg hne]
      exact heA
    · rw [if_neg hc]
      exact heA
  · -- tlbivlt on a different pid leaves the slot intact
    apply Xv6.Swtlb.lookup_hit_of_entry _ pid va pa flags hva hpa hf
    unfold Xv6.Swtlb.tlbivlt
    simp only []
    rw [if_neg]
    · exact heA
    · rw [heA]
      rintro ⟨-, -, hp⟩
      exact hd2 (by simpa using hp.symm)

/-- Witness for C7 (amended) at concrete values: pid 1, va 0x1000,
pa 0x2000, flags 7; unrelated invalidations target pid 2 / va 0x3000. -/
theorem Xv6.Swtlb.lookup_after_alloc_witness :
    (Xv6.Swtlb.tlblookup
        (Xv6.Swtlb.tlballoc Xv6.Swtlb.emptyTlb 1 4096 8192 7) 1 4096).1 =
      some (8192, 7) ∧
    (Xv6.Swtlb.tlblookup
        (Xv6.Swtlb.tlbivltp (Xv6.Swtlb.tlballoc Xv6.Swtlb.emptyTlb 1 4096 8192 7) 2 12288)
        1 4096).1 = some (8192, 7) ∧
    (Xv6.Swtlb.tlblookup
        (Xv6.Swtlb.tlbivlt (Xv6.Swtlb.tlballoc Xv6.Swtlb.emptyTlb 1 4096 8192 7) 2)
        1 4096).1 = some (8192, 7) :=
  Xv6.Swtlb.lookup_after_alloc Xv6.Swtlb.emptyTlb 1 4096 8192 7 2 12288 2
    (by decide) (by decide) (by decide) (by decide) (by decide) (by decide)

/-- C3 evaluated at its failing input: bucket 2 of `wIpt` chains two
entries; removing the (matching) head entry `(va 0x1000, pa 0x2000,
pid 1)` sets the bucket head to null, so the chain shrinks from length 2
to length 0 and the surviving entry of pid 5 becomes unreachable, instead
of the chain length decreasing by exactly one. -/
theorem Xv6.Ipt.ipt_remove_drops_head_successors :
    (Xv6.Ipt.ipt_remove Xv6.Ipt.wIpt 4096 8192 1).2 = 1 ∧
    (Xv6.Ipt.ipt_remove Xv6.Ipt.wIpt 4096 8192 1).1.buckets 2 = [] ∧
    Xv6.Ipt.wIpt.buckets 2 = [⟨2, 1, 4096, 3, 1⟩, ⟨2, 5, 12288, 3, 0⟩] := by
  refine ⟨?_, ?_, ?_⟩ <;> decide

/-- Helper: AND distributes over a common power-of-two factor. -/
theorem Xv6.two_pow_mul_and (k a b : ℕ) :
    (2 ^ k * a) &&& (2 ^ k * b) = 2 ^ k * (a &&& b) := by
  apply Nat.eq_of_testBit_eq
  intro j
  simp only [Nat.testBit_and, Nat.testBit_mul_pow_two]
  by_cases hj : k ≤ j
  · simp [ge_iff_le, hj]
  · simp [ge_iff_le, hj]

/-- Helper: the PTE update `(x & ~PTE_C) | PTE_W` clears the COW bit. -/
theorem Xv6.Cow.update_and_C (x : ℕ) :
    ((x &&& (0xFFFFFFFF ^^^ Xv6.Cow.PTE_C)) ||| Xv6.Cow.PTE_W) &&& Xv6.Cow.PTE_C = 0 := by
  rw [Nat.and_distrib_right, Nat.and_assoc]
  rw [show (0xFFFFFFFF ^^^ Xv6.Cow.PTE_C) &&& Xv6.Cow.PTE_C = 0 by decide]
  rw [show Xv6.Cow.PTE_W &&& Xv6.Cow.PTE_C = 0 by decide]
  simp

/-- Helper: the PTE update `(x & ~PTE_C) | PTE_W` sets the writable bit. -/
theorem Xv6.Cow.update_and_W (x : ℕ) :
    ((x &&& (0xFFFFFFFF ^^^ Xv6.Cow.PTE_C)) ||| Xv6.Cow.PTE_W) &&& Xv6.Cow.PTE_W =
      Xv6.Cow.PTE_W := by
  rw [Nat.and_distrib_right, Nat.and_assoc]
  rw [show (0xFFFFFFFF ^^^ Xv6.Cow.PTE_C) &&& Xv6.Cow.PTE_W = Xv6.Cow.PTE_W by decide]
  rw [show Xv6.Cow.PTE_W &&& Xv6.Cow.PTE_W = Xv6.Cow.PTE_W by decide]
  have h2 : (Xv6.Cow.PTE_W : ℕ) = 2 ^ 1 := by decide
  rw [h2, Nat.and_two_pow]
  cases hx : x.testBit 1 <;> simp

/-- Helper: the PTE update `(x & ~PTE_C) | PTE_W` leaves the frame
address bits of `x` unchanged. -/
theorem Xv6.Cow.update_and_addr (x : ℕ) :
    ((x &&& (0xFFFFFFFF ^^^ Xv6.Cow.PTE_C)) ||| Xv6.Cow.PTE_W) &&& 0xFFFFF000 =
      x &&& 0xFFFFF000 := by
  rw [Nat.and_distrib_right, Nat.and_assoc]
  rw [show (0xFFFFFFFF ^^^ Xv6.Cow.PTE_C) &&& 0xFFFFF000 = 0xFFFFF000 by decide]
  rw [show Xv6.Cow.PTE_W &&& (0xFFFFF000 : ℕ) = 0 by decide]
  simp

/-- Helper: the PTE update is idempotent: applying `(· & ~PTE_C) | PTE_W`
twice gives the same PTE as applying it once. -/
theorem Xv6.Cow.update_idem (x : ℕ) :
    ((((x &&& (0xFFFFFFFF ^^^ Xv6.Cow.PTE_C)) ||| Xv6.Cow.PTE_W) &&&
        (0xFFFFFFFF ^^^ Xv6.Cow.PTE_C)) ||| Xv6.Cow.PTE_W) =
      (x &&& (0xFFFFFFFF ^^^ Xv6.Cow.PTE_C)) ||| Xv6.Cow.PTE_W := by
  rw [Nat.and_distrib_right, Nat.and_assoc, Nat.and_self]
  rw [show Xv6.Cow.PTE_W &&& (0xFFFFFFFF ^^^ Xv6.Cow.PTE_C) = Xv6.Cow.PTE_W by decide]
  rw [Nat.or_assoc, Nat.or_self]

/-- Helper: a PTE built as `new_pa | PTE_FLAGS old` has frame address
`new_pa`, for a frame index below 2^20. -/
theorem Xv6.Cow.repoint_addr (ni x : ℕ) (h : ni < 2 ^ 20) :
    ((ni * Xv6.Ipt.PGSIZE) ||| (x &&& 0xFFF)) &&& 0xFFFFF000 = ni * Xv6.Ipt.PGSIZE := by
  rw [Nat.and_distrib_right, Nat.and_assoc]
  rw [show (0xFFF : ℕ) &&& 0xFFFFF000 = 0 by decide, Nat.and_zero, Nat.or_zero]
  rw [show Xv6.Ipt.PGSIZE = 2 ^ 12 by decide, Nat.mul_comm ni]
  rw [show (0xFFFFF000 : ℕ) = 2 ^ 12 * 0xFFFFF by norm_num]
  rw [Xv6.two_pow_mul_and]
  rw [show (0xFFFFF : ℕ) = 2 ^ 20 - 1 by norm_num, Nat.and_pow_two_sub_one_eq_mod]
  rw [Nat.mod_eq_of_lt h]

/-- Helper: `ipt_insert` returns `some` whenever the bucket index is in
range (the only `panic` path). -/
theorem Xv6.Ipt.insert_total (s : Xv6.Ipt.Table) (t : Xv6.Swtlb.Tlb) (va pa perm pid : ℕ)
    (hb : pa / Xv6.Ipt.PGSIZE < Xv6.Ipt.IPT_BUCKETS) :
    (Xv6.Ipt.ipt_insert s t va pa perm pid).isSome = true := by
  unfold Xv6.Ipt.ipt_insert
  rw [if_neg (Nat.not_le.mpr hb)]
  simp only []
  split
  · rfl
  · split
    · rfl
    · rfl

/-- Helper: `ipt_remove` never shrinks the slab pool. -/
theorem Xv6.Ipt.remove_pool (s : Xv6.Ipt.Table) (va pa pid : ℕ) (hpool : s.pool ≠ 0) :
    (Xv6.Ipt.ipt_remove s va pa pid).1.pool ≠ 0 := by
  unfold Xv6.Ipt.ipt_remove
  simp only []
  split
  · simpa using hpool
  · split
    · simp
    · simp

/-- C2: the COW write-fault path of `trap`, with `r` the faulting frame's
refcnt: if `r > 1` (with a free frame and a free IPT slab cell available)
the handler allocates the next free frame `ni`, copies the page, repoints
the PTE to `ni*PGSIZE`, clears `PTE_C`, sets `PTE_W`, moves the IPT entry
by `ipt_remove (va, old pa, pid)` followed by `ipt_insert (va, new pa,
pid)`, and decrements the old frame's refcount; if `r = 1` it keeps the
frame and only clears `PTE_C` and sets `PTE_W`; in both cases the
hardware TLB is flushed afterward. -/
theorem Xv6.Cow.cow_fault_spec (s : Xv6.Cow.St) (va pid : ℕ)
    (hidx : Xv6.Cow.PTE_ADDR s.pte / Xv6.Ipt.PGSIZE < Xv6.Kalloc.PFNNUM) :
    ((s.kal.pf (Xv6.Cow.PTE_ADDR s.pte / Xv6.Ipt.PGSIZE)).refcnt = 1 →
      Xv6.Cow.cowFault s va pid =
        some { s with
          pte := (s.pte &&& (0xFFFFFFFF ^^^ Xv6.Cow.PTE_C)) ||| Xv6.Cow.PTE_W,
          hwFlushed := true } ∧
      (Xv6.Cow.cowFault s va pid).map
          (fun s' => (Xv6.Cow.PTE_ADDR s'.pte, s'.pte &&& Xv6.Cow.PTE_C,
            s'.pte &&& Xv6.Cow.PTE_W, s'.hwFlushed)) =
        some (Xv6.Cow.PTE_ADDR s.pte, 0, Xv6.Cow.PTE_W, true)) ∧
    (∀ ni rest, s.kal.freelist = ni :: rest →
      1 < (s.kal.pf (Xv6.Cow.PTE_ADDR s.pte / Xv6.Ipt.PGSIZE)).refcnt →
      ni < Xv6.Kalloc.PFNNUM → ni ≠ Xv6.Cow.PTE_ADDR s.pte / Xv6.Ipt.PGSIZE →
      s.ipt.pool ≠ 0 →
      (Xv6.Cow.cowFault s va pid).map (fun s' =>
          (Xv6.Cow.PTE_ADDR s'.pte, s'.pte &&& Xv6.Cow.PTE_C,
           s'.pte &&& Xv6.Cow.PTE_W, s'.pages ni,
           (s'.kal.pf (Xv6.Cow.PTE_ADDR s.pte / Xv6.Ipt.PGSIZE)).refcnt,
           (s'.kal.pf ni).refcnt, s'.hwFlushed)) =
        some (ni * Xv6.Ipt.PGSIZE, 0, Xv6.Cow.PTE_W,
              s.pages (Xv6.Cow.PTE_ADDR s.pte / Xv6.Ipt.PGSIZE),
              (s.kal.pf (Xv6.Cow.PTE_ADDR s.pte / Xv6.Ipt.PGSIZE)).refcnt - 1, 1, true) ∧
      (Xv6.Cow.cowFault s va pid).map (fun s' => (s'.ipt, s'.tlb)) =
        (Xv6.Ipt.ipt_insert
            (Xv6.Ipt.ipt_remove s.ipt va (Xv6.Cow.PTE_ADDR s.pte) pid).1 s.tlb va
            (ni * Xv6.Ipt.PGSIZE)
            (Xv6.Cow.PTE_FLAGS (((ni * Xv6.Ipt.PGSIZE ||| Xv6.Cow.PTE_FLAGS s.pte) &&&
              (0xFFFFFFFF ^^^ Xv6.Cow.PTE_C)) ||| Xv6.Cow.PTE_W)) pid).map
          (fun x => (x.1, x.2.1))) := by
  have hnl : ¬ Xv6.Kalloc.PFNNUM ≤ Xv6.Cow.PTE_ADDR s.pte / Xv6.Ipt.PGSIZE :=
    Nat.not_le.mpr hidx
  constructor
  · intro hr
    have hnr : ¬ 1 < (s.kal.pf (Xv6.Cow.PTE_ADDR s.pte / Xv6.Ipt.PGSIZE)).refcnt := by omega
    have hF : Xv6.Cow.cowFault s va pid = some { s with
        pte := (s.pte &&& (0xFFFFFFFF ^^^ Xv6.Cow.PTE_C)) ||| Xv6.Cow.PTE_W,
        hwFlushed := true } := by
      unfold Xv6.Cow.cowFault
      rw [if_neg hnl]
      simp only []
      rw [if_neg hnr]
    refine ⟨hF, ?_⟩
    rw [hF]
    simp [Option.map_some', Xv6.Cow.PTE_ADDR, Xv6.Cow.update_and_addr,
      Xv6.Cow.update_and_C, Xv6.Cow.update_and_W]
  · intro ni rest hfl hr hniP hniIdx hpool
    have hni20 : ni < 2 ^ 20 := lt_trans hniP (by norm_num [Xv6.Kalloc.PFNNUM])
    have hkal : Xv6.Kalloc.kalloc s.kal true (pid : ℤ) =
        Xv6.Kalloc.KallocRes.ok ni (Xv6.Kalloc.kallocOkSt s.kal true (pid : ℤ) ni) := by
      unfold Xv6.Kalloc.kalloc Xv6.Kalloc.kallocOkSt
      rw [hfl]
      simp only []
      rw [if_neg (Nat.not_le.mpr hniP)]
      rfl
    have hbk : ni * Xv6.Ipt.PGSIZE / Xv6.Ipt.PGSIZE < Xv6.Ipt.IPT_BUCKETS := by
      rw [Nat.mul_div_cancel ni (show 0 < Xv6.Ipt.PGSIZE by norm_num [Xv6.Ipt.PGSIZE])]
      exact hniP
    obtain ⟨out, hins⟩ := Option.isSome_iff_exists.mp
      (Xv6.Ipt.insert_total (Xv6.Ipt.ipt_remove s.ipt va (Xv6.Cow.PTE_ADDR s.pte) pid).1
        s.tlb va (ni * Xv6.Ipt.PGSIZE)
        (Xv6.Cow.PTE_FLAGS (((ni * Xv6.Ipt.PGSIZE ||| Xv6.Cow.PTE_FLAGS s.pte) &&&
          (0xFFFFFFFF ^^^ Xv6.Cow.PTE_C)) ||| Xv6.Cow.PTE_W)) pid hbk)
    obtain ⟨ipt2, tlb2, rc⟩ := out
    constructor
    · unfold Xv6.Cow.cowFault
      rw [if_neg hnl]
      simp only []
      rw [if_pos hr, hkal]
      dsimp only
      rw [hins]
      dsimp only
      have hniIdx2 : ¬ (ni = (s.pte &&& 0xFFFFF000) / Xv6.Ipt.PGSIZE) := by
        simpa [Xv6.Cow.PTE_ADDR] using hniIdx
      simp [Option.map_some', Xv6.Cow.PTE_ADDR, Xv6.Cow.PTE_FLAGS,
        Xv6.Cow.update_and_addr, Xv6.Cow.update_and_C, Xv6.Cow.update_and_W,
        Xv6.Cow.repoint_addr ni s.pte hni20, hniIdx2, Xv6.Kalloc.kallocOkSt]
    · unfold Xv6.Cow.cowFault
      rw [if_neg hnl]
      simp only []
      rw [if_pos hr, hkal]
      dsimp only
      rw [hins]
      simp

/-- Witness for C2 at the concrete states `wCow` (refcnt 2: the page is
copied to frame 9 and the old count drops to 1) and `wCow1` (refcnt 1:
the frame is kept). -/
theorem Xv6.Cow.cow_fault_spec_witness :
    ((Xv6.Cow.cowFault Xv6.Cow.wCow 0x5000 1).map (fun s' =>
        (Xv6.Cow.PTE_ADDR s'.pte, s'.pte &&& Xv6.Cow.PTE_C,
         s'.pte &&& Xv6.Cow.PTE_W, s'.pages 9,
         (s'.kal.pf (Xv6.Cow.PTE_ADDR Xv6.Cow.wCow.pte / Xv6.Ipt.PGSIZE)).refcnt,
         (s'.kal.pf 9).refcnt, s'.hwFlushed)) =
      some (9 * Xv6.Ipt.PGSIZE, 0, Xv6.Cow.PTE_W,
            Xv6.Cow.wCow.pages (Xv6.Cow.PTE_ADDR Xv6.Cow.wCow.pte / Xv6.Ipt.PGSIZE),
            (Xv6.Cow.wCow.kal.pf (Xv6.Cow.PTE_ADDR Xv6.Cow.wCow.pte / Xv6.Ipt.PGSIZE)).refcnt - 1,
            1, true)) ∧
    (Xv6.Cow.cowFault Xv6.Cow.wCow1 0x5000 1).map
        (fun s' => (Xv6.Cow.PTE_ADDR s'.pte, s'.pte &&& Xv6.Cow.PTE_C,
          s'.pte &&& Xv6.Cow.PTE_W, s'.hwFlushed)) =
      some (Xv6.Cow.PTE_ADDR Xv6.Cow.wCow1.pte, 0, Xv6.Cow.PTE_W, true) :=
  ⟨((Xv6.Cow.cow_fault_spec Xv6.Cow.wCow 0x5000 1 (by decide)).2 9 [] rfl
      (by decide) (by decide) (by decide) (by decide)).1,
   ((Xv6.Cow.cow_fault_spec Xv6.Cow.wCow1 0x5000 1 (by decide)).1 (by decide)).2⟩

/-- C4: for every block `b` whose `smeta.smap` bit is set
(`smap[b/8] & (1<<(b%8)) != 0`), `bfree` returns without modifying the
on-disk free bitmap (the state is unchanged), so a snapshot-referenced
block is never freed; when the bit is clear, `bfree` clears the block's
free-bitmap bit, panicking if the block was already free. -/
theorem Xv6.Fs.bfree_spec (fs : Xv6.Fs.Disk) (b : ℕ) :
    (fs.smap (b / 8) &&& (1 <<< (b % 8)) ≠ 0 → Xv6.Fs.bfree fs b = some fs) ∧
    (fs.smap (b / 8) &&& (1 <<< (b % 8)) = 0 →
      (fs.bmapBits (b / 8) &&& (1 <<< (b % 8)) ≠ 0 →
        Xv6.Fs.bfree fs b = some (Xv6.Fs.bmapClear fs b)) ∧
      (fs.bmapBits (b / 8) &&& (1 <<< (b % 8)) = 0 → Xv6.Fs.bfree fs b = none)) := by
  unfold Xv6.Fs.bfree
  refine ⟨fun h => by rw [if_pos h], fun h => ⟨fun h2 => ?_, fun h2 => ?_⟩⟩
  · rw [if_neg (fun hne => hne h), if_neg h2]
  · rw [if_neg (fun hne => hne h), if_pos h2]

/-- Witness for C4 on the concrete disk `wDisk`: block 7 (smap bit set)
is not freed; block 1 (smap clear, allocated) has its bitmap bit
cleared; block 20 (already free) panics. -/
theorem Xv6.Fs.bfree_spec_witness :
    Xv6.Fs.bfree Xv6.Fs.wDisk 7 = some Xv6.Fs.wDisk ∧
    Xv6.Fs.bfree Xv6.Fs.wDisk 1 = some (Xv6.Fs.bmapClear Xv6.Fs.wDisk 1) ∧
    Xv6.Fs.bfree Xv6.Fs.wDisk 20 = none :=
  ⟨(Xv6.Fs.bfree_spec Xv6.Fs.wDisk 7).1 (by decide),
   ((Xv6.Fs.bfree_spec Xv6.Fs.wDisk 1).2 (by decide)).1 (by decide),
   ((Xv6.Fs.bfree_spec Xv6.Fs.wDisk 20).2 (by decide)).2 (by decide)⟩

/-- C9 at its failing input (process size 4092, hits_out = 0,
misses_out = 4090): the mis-parenthesized `argptr` call validates
`misses_out` with size 0, so the syscall accepts the pointer and returns
0, writing 4 bytes at 4090 although the pointer is a bad user address
(4090 + 4 > 4092); the specified behavior, validating both pointers with
their 4-byte size, returns −1. -/
theorem Xv6.Tlbinfo.sys_tlbinfo_missing_validation :
    Xv6.Tlbinfo.sys_tlbinfo 4092 0 4090 = 0 ∧
    Xv6.Tlbinfo.argptrOk 4092 4090 4 = false ∧
    Xv6.Tlbinfo.sys_tlbinfo_claim 4092 0 4090 = -1 := by
  refine ⟨?_, ?_, ?_⟩ <;> decide

/-- Counterexample to C5 as stated: with 10 inodes of which 2 are in use
(so `avail = ninodes − s_isize() = 8`), `micount = 0` and `req = 2`, the
claim's formula `max(avail, micount) + req + 1 > ninodes` (8+2+1 > 10)
would fail with OUT_OF_INODES, but the code's admission check
(`max(s_isize(), micount) + req + 1 = 5 ≤ 10`) lets the call proceed. -/
theorem Xv6.Fs.create_admission_counterexample :
    Xv6.Fs.s_snapshot_create_admission (Xv6.Fs.s_isize 10 Xv6.Fs.wDtype) 0 2 10 = none ∧
    Xv6.Fs.createAdmissionClaim (Xv6.Fs.s_isize 10 Xv6.Fs.wDtype) 0 2 10 = true ∧
    Xv6.Fs.s_isize 10 Xv6.Fs.wDtype = 2 := by
  refine ⟨?_, ?_, ?_⟩ <;> decide

/-- C5 (amended): `s_snapshot_create` fails with OUT_OF_INODES (−2),
before creating the snapshot tree, exactly when
`max(s_isize(), micount) + req + 1 > ninodes`, where `s_isize()` is the
count of in-use on-disk inodes (not the free-inode count). -/
theorem Xv6.Fs.create_admission_spec (dtype : ℕ → ℕ) (total mic req : ℕ) :
    Xv6.Fs.s_snapshot_create_admission (Xv6.Fs.s_isize total dtype) mic req total =
        some (-2) ↔
      max (Xv6.Fs.s_isize total dtype) mic + req + 1 > total := by
  unfold Xv6.Fs.s_snapshot_create_admission
  have hcur : (if mic > Xv6.Fs.s_isize total dtype then mic
      else Xv6.Fs.s_isize total dtype) = max (Xv6.Fs.s_isize total dtype) mic := by
    by_cases h : mic > Xv6.Fs.s_isize total dtype
    · rw [if_pos h]
      exact (Nat.max_eq_right (le_of_lt h)).symm
    · rw [if_neg h]
      exact (Nat.max_eq_left (Nat.le_of_not_lt h)).symm
  simp only []
  rw [hcur]
  by_cases hgt : max (Xv6.Fs.s_isize total dtype) mic + req + 1 > total
  · rw [if_pos hgt]
    simp [hgt]
  · rw [if_neg hgt]
    simp [hgt]

/-- C6: when the snapshot tree has fewer inodes than the live tree
(`icount(snapshot) < icount(/)`), `s_snapshot_rollback`'s admission
check never returns OUT_OF_INODES: the signed `reqinodes` is negative
and only lowers the left-hand side, and `curinodes` never exceeds
`ninodes` (`s_isize` counts at most `ninodes` inodes and `micount` at
most the `NINODE` cache slots, which is ≤ `ninodes` in the shipped
configuration — hypothesis `h2`). -/
theorem Xv6.Fs.rollback_admission_no_oom (dtype : ℕ → ℕ) (cache : List Xv6.Fs.CInode)
    (add del total : ℕ) (h1 : add < del) (h2 : cache.length ≤ total) :
    Xv6.Fs.s_snapshot_rollback_admission (Xv6.Fs.s_isize total dtype)
      (Xv6.Fs.micount cache) add del total = none := by
  have hu : Xv6.Fs.s_isize total dtype ≤ total := by
    unfold Xv6.Fs.s_isize
    exact le_trans (List.countP_le_length _) (le_of_eq (List.length_range total))
  have hm : Xv6.Fs.micount cache ≤ total := le_trans (List.countP_le_length _) h2
  unfold Xv6.Fs.s_snapshot_rollback_admission
  simp only []
  by_cases h : Xv6.Fs.micount cache > Xv6.Fs.s_isize total dtype
  · rw [if_pos h]
    rw [if_neg (show ¬ ((Xv6.Fs.micount cache : ℤ) + ((add : ℤ) - (del : ℤ)) >
      (total : ℤ)) by omega)]
  · rw [if_neg h]
    rw [if_neg (show ¬ ((Xv6.Fs.s_isize total dtype : ℤ) + ((add : ℤ) - (del : ℤ)) >
      (total : ℤ)) by omega)]

/-- Witness for C6 at concrete values: 10 inodes, two in use, empty
icache, snapshot tree of 1 inode vs live tree of 2. -/
theorem Xv6.Fs.rollback_admission_no_oom_witness :
    Xv6.Fs.s_snapshot_rollback_admission (Xv6.Fs.s_isize 10 Xv6.Fs.wDtype)
      (Xv6.Fs.micount []) 1 2 10 = none :=
  Xv6.Fs.rollback_admission_no_oom Xv6.Fs.wDtype [] 1 2 10 (by decide) (by decide)

/-- Helper: the per-iteration stride of a one-byte write is one byte. -/
theorem Xv6.Fs.min_one_stride (off : ℕ) :
    min (1 - 0) (Xv6.Fs.BSIZE - off % Xv6.Fs.BSIZE) = 1 := by
  have h : off % Xv6.Fs.BSIZE < Xv6.Fs.BSIZE :=
    Nat.mod_lt off (by norm_num [Xv6.Fs.BSIZE])
  simp only [Xv6.Fs.BSIZE] at h ⊢
  omega

/-- Helper: the byte-copy loop of `writei` at `n = 1` performs exactly
the one-byte in-place write of the claim, advancing `off` by one. -/
theorem Xv6.Fs.writeLoop_one (fs : Xv6.Fs.Disk) (ip : Xv6.Fs.Inode)
    (src : ℕ → ℕ) (off : ℕ) :
    Xv6.Fs.writeLoop src 1 1 fs ip off 0 0 =
      (Xv6.Fs.writeByteClaim fs ip src off).map (fun p => (p.1, p.2, off + 1)) := by
  show Xv6.Fs.writeLoop src 1 (0 + 1) fs ip off 0 0 = _
  rw [Xv6.Fs.writeLoop]
  rw [if_pos Nat.zero_lt_one]
  unfold Xv6.Fs.writeByteClaim
  cases hbm : Xv6.Fs.bmap fs ip (off / Xv6.Fs.BSIZE) with
  | none => simp
  | some t =>
    obtain ⟨addr, fs1, ip1⟩ := t
    simp only [Option.map_some']
    rw [Xv6.Fs.min_one_stride]
    rw [Xv6.Fs.writeLoop]
    have hfun : (fun k => if off % Xv6.Fs.BSIZE ≤ k ∧ k < off % Xv6.Fs.BSIZE + 1
        then src (0 + (k - off % Xv6.Fs.BSIZE)) else fs1.data addr k) =
        (fun k => if k = off % Xv6.Fs.BSIZE then src 0 else fs1.data addr k) := by
      funext k
      by_cases hk : k = off % Xv6.Fs.BSIZE
      · rw [if_pos (by omega), if_pos hk]
        subst hk
        simp
      · rw [if_neg (by omega), if_neg hk]
    rw [hfun]

/-- C1: a `writei` of exactly one byte at offset `off` into an existing
block: when the block's smap bit is set the code COWs only that block if
it is direct (`bn < NDIRECT`), or clears the bit and migrates the whole
indirect subtree if it is indirect-referenced; a block whose bit is
clear is written in place — the code equals the claim-side composition
`writeiOneByteClaim`. -/
theorem Xv6.Fs.writei_one_byte_cow (fs : Xv6.Fs.Disk) (ip : Xv6.Fs.Inode)
    (src : ℕ → ℕ) (off blockno : ℕ)
    (hty : ip.itype = Xv6.Fs.T_FILE) (hsz : off ≤ ip.size)
    (hmax : off + 1 ≤ Xv6.Fs.MAXFILE * Xv6.Fs.BSIZE)
    (hb : Xv6.Fs.bmmap fs ip (off / Xv6.Fs.BSIZE) = some blockno) (hb0 : blockno ≠ 0) :
    Xv6.Fs.writei fs ip src off 1 = Xv6.Fs.writeiOneByteClaim fs ip src off := by
  have hmax2 : off + 1 < 2 ^ 32 := lt_of_le_of_lt hmax (by
    norm_num [Xv6.Fs.MAXFILE, Xv6.Fs.NDIRECT, Xv6.Fs.NINDIRECT, Xv6.Fs.BSIZE])
  unfold Xv6.Fs.writei Xv6.Fs.writeiOneByteClaim
  rw [if_neg (show ¬ ip.itype = Xv6.Fs.T_DEV by rw [hty]; decide)]
  rw [if_neg (show ¬ (ip.size < off ∨ (off + 1) % 2 ^ 32 < off) by
    rw [Nat.mod_eq_of_lt hmax2]; omega)]
  rw [if_neg (show ¬ (Xv6.Fs.MAXFILE * Xv6.Fs.BSIZE < (off + 1) % 2 ^ 32) by
    rw [Nat.mod_eq_of_lt hmax2]; omega)]
  rw [if_pos (show ip.itype ≠ Xv6.Fs.T_DIR by rw [hty]; decide)]
  rw [show Xv6.Fs.scanLoop off 1 1 fs ip 0 off false false =
      Xv6.Fs.scanLoop off 1 (0 + 1) fs ip 0 off false false from rfl]
  rw [Xv6.Fs.scanLoop]
  rw [if_pos Nat.zero_lt_one]
  simp only [hb, Xv6.Fs.min_one_stride]
  rw [if_neg hb0]
  by_cases hsm : Xv6.Fs.smapTest fs blockno = true
  · rw [if_pos hsm, if_pos (⟨hb0, hsm⟩ : blockno ≠ 0 ∧ Xv6.Fs.smapTest fs blockno = true)]
    by_cases hdir : off / Xv6.Fs.BSIZE < Xv6.Fs.NDIRECT
    · rw [if_neg (Nat.not_le.mpr hdir), if_pos hdir]
      unfold Xv6.Fs.cowDirectClaim
      simp only []
      cases hbm : Xv6.Fs.bmap (Xv6.Fs.smapClear fs blockno)
          { ip with addrs := fun j => if j = off / Xv6.Fs.BSIZE then 0 else ip.addrs j }
          (off / Xv6.Fs.BSIZE) with
      | none => rfl
      | some t =>
        obtain ⟨nb, fs2, ip2⟩ := t
        dsimp only
        rw [Xv6.Fs.scanLoop]
        dsimp only
        rw [if_neg Bool.false_ne_true]
        dsimp only
        rw [Xv6.Fs.writeLoop_one]
        split
        · rename_i heq
          rw [Option.map_eq_none'] at heq
          rw [heq]
        · rename_i fs3 ip3 off2 heq
          rw [Option.map_eq_some'] at heq
          obtain ⟨p, hp, hfp⟩ := heq
          obtain ⟨pa, pb⟩ := p
          rw [hp]
          injection hfp with h1 hrest
          injection hrest with h2 h3
          subst h1
          subst h2
          subst h3
          simp
    · rw [if_pos (Nat.le_of_not_lt hdir), if_neg hdir]
      rw [Xv6.Fs.scanLoop]
      simp only []
      cases hmig : Xv6.Fs.migrate (Xv6.Fs.smapClear fs blockno) ip with
      | none => rfl
      | some t =>
        obtain ⟨fs2, ip2⟩ := t
        dsimp only
        rw [if_pos trivial]
        dsimp only
        rw [Xv6.Fs.writeLoop_one]
        split
        · rename_i heq
          rw [Option.map_eq_none'] at heq
          rw [heq]
        · rename_i fs3 ip3 off2 heq
          rw [Option.map_eq_some'] at heq
          obtain ⟨p, hp, hfp⟩ := heq
          obtain ⟨pa, pb⟩ := p
          rw [hp]
          injection hfp with h1 hrest
          injection hrest with h2 h3
          subst h1
          subst h2
          subst h3
          simp
  · rw [if_neg hsm, if_neg (fun hc => hsm hc.2)]
    rw [Xv6.Fs.scanLoop]
    dsimp only
    rw [if_neg Bool.false_ne_true]
    dsimp only
    rw [Xv6.Fs.writeLoop_one]
    split
    · rename_i heq
      rw [Option.map_eq_none'] at heq
      rw [heq]
    · rename_i fs3 ip3 off2 heq
      rw [Option.map_eq_some'] at heq
      obtain ⟨p, hp, hfp⟩ := heq
      obtain ⟨pa, pb⟩ := p
      rw [hp]
      injection hfp with h1 hrest
      injection hrest with h2 h3
      subst h1
      subst h2
      subst h3
      simp

/-- Witness for C1: one byte written at offset 0 of `wInode` on `wDisk`,
whose target block 7 is snapshot-shared and direct. -/
theorem Xv6.Fs.writei_one_byte_cow_witness :
    Xv6.Fs.writei Xv6.Fs.wDisk Xv6.Fs.wInode (fun _ => 65) 0 1 =
      Xv6.Fs.writeiOneByteClaim Xv6.Fs.wDisk Xv6.Fs.wInode (fun _ => 65) 0 :=
  Xv6.Fs.writei_one_byte_cow Xv6.Fs.wDisk Xv6.Fs.wInode (fun _ => 65) 0 7
    (by decide) (by decide) (by decide) (by decide) (by decide)
